import Mathlib

/-!
# CTFD-Attempts-Remover: `assets/settingsremover.js`

A shallow embedding of the browser script that injects the "unblock" button on the
challenges page and highlights blocked challenges, followed by theorems about it.

Conventions of the embedding.

* JavaScript strings are Lean strings (well-formed text; lone surrogates are not modelled).
* `Date.now()` is an `Int` number of milliseconds.
* The result of `document.querySelectorAll('[data-challenge-name], .challenge-button, .btn')`
  is a list of `Element`s in document order; marking an element never changes that list's
  membership, so a styling pass maps the list to a list of the same length.
* The closure variables of the configuration handler are the fields of `Overlay`.
* JavaScript's `==` between an attribute string and a JSON number converts the string with
  the platform's StringToNumber (a floating point parser). That primitive is the parameter
  `numEq` of the definitions below; everything else of `==` is spelled out in `looseEq`.
-/

namespace AttemptsRemover

/-! ## Strings -/

/-- Code points removed by `String.prototype.trim`: ECMAScript WhiteSpace and LineTerminator. -/
def isJsSpace (c : Char) : Bool :=
  let n := c.toNat
  n == 9 || n == 10 || n == 11 || n == 12 || n == 13 || n == 32 || n == 160 ||
  n == 5760 || (8192 ≤ n && n ≤ 8202) || n == 8232 || n == 8233 || n == 8239 ||
  n == 8287 || n == 12288 || n == 65279

/-- The method `s.trim()`. -/
def jsTrim (s : String) : String :=
  String.mk ((s.data.dropWhile isJsSpace).reverse.dropWhile isJsSpace).reverse

/-- The method `s.startsWith(p)`. -/
def startsWith (s p : String) : Bool :=
  p.data.isPrefixOf s.data

/-! ## Data -/

/-- JSON value of `challenge_id`: a number or a string. -/
inductive JsId where
  | num (n : Int)
  | str (s : String)
  deriving DecidableEq, Repr

/-- One element of the array served by `/api/v1/attempts_remover/blocked`.
`fail_count` and `max_attempts` are non-negative integers, printed in decimal by the
template literal. -/
structure Entry where
  challenge_id : JsId
  challenge_name : String
  fail_count : Nat
  max_attempts : Nat
  deriving DecidableEq, Repr

/-- A candidate element (an HTML element, so `innerText` is a string):
the parts of it the script reads or writes. -/
structure Element where
  textContent : String
  innerText : String
  /-- Result of `getAttribute('data-challenge-id')`, `none` for `null`. -/
  dataChallengeId : Option String
  classList : List String
  title : String
  deriving DecidableEq, Repr

/-- The variables declared at lines 87-91. `markedButtons` is a `Set` of strings, kept
in insertion order; `debounceTimer` is `null` or a timer handle. -/
structure Overlay where
  blockedChallengesCache : List Entry
  lastBlockedUpdate : Int
  lastChallengeCount : Nat
  markedButtons : List String
  debounceTimer : Option Nat
  deriving DecidableEq, Repr

/-- Values of the variables when the configuration handler has just declared them. -/
def Overlay.initial : Overlay :=
  { blockedChallengesCache := [], lastBlockedUpdate := 0, lastChallengeCount := 0,
    markedButtons := [], debounceTimer := none }

/-- The variables captured by the handlers of one blocked-list fetch. -/
structure Request where
  currentTime : Int
  currentCount : Nat
  deriving DecidableEq, Repr

/-- How a blocked-list fetch settles before the handlers run: the promise
`fetch(...).then(response => response.json())` rejects (network error, body that is not
JSON) or fulfils with the parsed body, `none` standing for a falsy body such as `null`. -/
inductive FetchResult where
  | networkError
  | invalidJson
  | json (body : Option (List Entry))
  deriving DecidableEq, Repr

/-! ## `applyBlockedStyling` -/

/-- The expression `btn.textContent || btn.innerText`: the empty string is falsy. -/
def btnText (btn : Element) : String :=
  if btn.textContent = "" then btn.innerText else btn.textContent

/-- The template literal of line 145; `btnId || 'no-id'` takes `'no-id'` for `null`
and for the empty string. -/
def buttonKey (btn : Element) : String :=
  (match btn.dataChallengeId with
    | none => "no-id"
    | some s => if s = "" then "no-id" else s) ++ "-" ++ jsTrim (btnText btn)

/-- The comparison `btnId == challenge.challenge_id` for `btnId` a string or `null`. -/
def looseEq (numEq : String → Int → Bool) : Option String → JsId → Bool
  | none, _ => false
  | some s, JsId.str t => s == t
  | some s, JsId.num n => numEq s n

/-- The constant `isExactMatch` of lines 151-155. -/
def isExactMatch (btn : Element) (challenge : Entry) : Bool :=
  let challengeName := jsTrim challenge.challenge_name
  let buttonText := jsTrim (btnText btn)
  buttonText == challengeName ||
    startsWith buttonText (challengeName ++ String.singleton (Char.ofNat 32)) ||
    startsWith buttonText (challengeName ++ String.singleton (Char.ofNat 10))

/-- The condition of line 157. -/
def entryMatches (numEq : String → Int → Bool) (btn : Element) (challenge : Entry) : Bool :=
  isExactMatch btn challenge || looseEq numEq btn.dataChallengeId challenge.challenge_id

/-- The method `classList.add(c)`. -/
def classListAdd (c : String) (l : List String) : List String :=
  if c ∈ l then l else l ++ [c]

/-- The method `Set.prototype.add`. -/
def setAdd (k : String) (s : List String) : List String :=
  if k ∈ s then s else s ++ [k]

/-- The template literal of line 159. -/
def tooltip (challenge : Entry) : String :=
  "🔒 Challenge bloqué (" ++ toString challenge.fail_count ++ "/" ++
    toString challenge.max_attempts ++ " tentatives)"

/-- Lines 158-159 applied to an element. -/
def markBlocked (cur : Element) (challenge : Entry) : Element :=
  { cur with classList := classListAdd "blocked" cur.classList, title := tooltip challenge }

/-- Body of the inner `forEach` (lines 150-162). `btn` is the element as read before the
loop (its text and id do not change), `acc` the element and the memo set so far. -/
def innerStep (numEq : String → Int → Bool) (btn : Element)
    (acc : Element × List String) (challenge : Entry) : Element × List String :=
  if entryMatches numEq btn challenge then
    (markBlocked acc.1 challenge, setAdd (buttonKey btn) acc.2)
  else acc

/-- Body of the outer `forEach` (lines 142-163) for one element. -/
def styleButton (numEq : String → Int → Bool) (cache : List Entry)
    (marked : List String) (btn : Element) : Element × List String :=
  if buttonKey btn ∈ marked then (btn, marked)
  else cache.foldl (innerStep numEq btn) (btn, marked)

/-- The outer `forEach` over the candidate elements, threading the memo set. -/
def styleAll (numEq : String → Int → Bool) (cache : List Entry) :
    List String → List Element → List Element × List String
  | marked, [] => ([], marked)
  | marked, btn :: rest =>
    let r := styleButton numEq cache marked btn
    let rs := styleAll numEq cache r.2 rest
    (r.1 :: rs.1, rs.2)

/-- The function `applyBlockedStyling` (lines 137-164). -/
def applyBlockedStyling (numEq : String → Int → Bool) (ov : Overlay)
    (page : List Element) : Overlay × List Element :=
  if ov.blockedChallengesCache.length = 0 then (ov, page)
  else
    let r := styleAll numEq ov.blockedChallengesCache ov.markedButtons page
    ({ ov with markedButtons := r.2 }, r.1)

/-! ## `markBlockedChallenges` and the handlers of its fetch -/

/-- The constant `shouldRefreshData` (lines 103-105). -/
def shouldRefreshData (forceRefresh : Bool) (currentTime : Int) (currentCount : Nat)
    (ov : Overlay) : Bool :=
  forceRefresh || decide (currentTime - ov.lastBlockedUpdate > 60000) ||
    decide (currentCount ≠ ov.lastChallengeCount)

/-- The call `markBlockedChallenges(forceRefresh)` made at time `now` on the candidate list `page`
(lines 94-134). The third component is the fetch it issues, if any. -/
def markBlockedChallenges (numEq : String → Int → Bool) (forceRefresh : Bool) (now : Int)
    (ov : Overlay) (page : List Element) : Overlay × List Element × Option Request :=
  let currentTime := now
  let currentCount := page.length
  if shouldRefreshData forceRefresh currentTime currentCount ov then
    (ov, page, some { currentTime := currentTime, currentCount := currentCount })
  else
    let r := applyBlockedStyling numEq ov page
    (r.1, r.2, none)

/-- The success handler (lines 118-124). -/
def onBlocked (numEq : String → Int → Bool) (req : Request) (blockedChallenges : Option (List Entry))
    (ov : Overlay) (page : List Element) : Overlay × List Element :=
  applyBlockedStyling numEq
    { ov with
      blockedChallengesCache := blockedChallenges.getD []
      lastBlockedUpdate := req.currentTime
      lastChallengeCount := req.currentCount
      markedButtons := [] }
    page

/-- The `catch` handler (lines 125-129). -/
def onBlockedError (req : Request) (ov : Overlay) : Overlay :=
  { ov with blockedChallengesCache := [], lastBlockedUpdate := req.currentTime }

/-- The promise chain of lines 114-129 once the fetch of `req` has settled. The chain ends
in `catch`, and neither handler can throw on these types, so it always fulfils: the result
is a plain state. -/
def settle (numEq : String → Int → Bool) (req : Request) (result : FetchResult)
    (ov : Overlay) (page : List Element) : Overlay × List Element :=
  match result with
  | FetchResult.json body => onBlocked numEq req body ov page
  | FetchResult.networkError => (onBlockedError req ov, page)
  | FetchResult.invalidJson => (onBlockedError req ov, page)

/-- Whether the fetch failed. -/
def FetchResult.failed : FetchResult → Bool
  | FetchResult.json _ => false
  | _ => true

/-- An instance of the string-to-number comparison: the attribute is the canonical decimal
numeral of the number (JavaScript agrees on such attributes). -/
def decimalNumEq (s : String) (n : Int) : Bool :=
  s == toString n

/-! ## What the specification says, in its own words -/

/-- The matching rule as the specification words it: the trimmed text equals the trimmed
name, or starts with the name followed by a space or by a line break, or the id attribute
equals the entry's id. -/
def SpecMatch (numEq : String → Int → Bool) (btn : Element) (challenge : Entry) : Prop :=
  jsTrim (btnText btn) = jsTrim challenge.challenge_name ∨
  (jsTrim challenge.challenge_name).data ++ [Char.ofNat 32] <+: (jsTrim (btnText btn)).data ∨
  (jsTrim challenge.challenge_name).data ++ [Char.ofNat 10] <+: (jsTrim (btnText btn)).data ∨
  looseEq numEq btn.dataChallengeId challenge.challenge_id = true

/-- The element an unmemoised button becomes when the inner loop has run over `cache`:
`cur` marked with the last entry of `cache` that matches `btn`, or `cur` itself. -/
def styledElement (numEq : String → Int → Bool) (cache : List Entry) (cur btn : Element) :
    Element :=
  match (cache.filter (entryMatches numEq btn)).getLast? with
  | none => cur
  | some c => markBlocked cur c

/-- The memo set `markedButtons` at the moment a pass of `applyBlockedStyling` over `page`
reaches the element at index `i`: the set the pass started with, after the outer loop has
handled the `i` elements before it. -/
def markedWhenReached (numEq : String → Int → Bool) (ov : Overlay) (page : List Element)
    (i : Nat) : List String :=
  (styleAll numEq ov.blockedChallengesCache ov.markedButtons (page.take i)).2

/-- One thing the overlay does to its state and to the candidate elements. -/
inductive OverlayOp where
  | styling
  | refresh (forceRefresh : Bool) (now : Int)
  | settled (req : Request) (result : FetchResult)
  deriving DecidableEq, Repr

/-- Effect of one operation. -/
def OverlayOp.apply (numEq : String → Int → Bool) (s : Overlay × List Element) :
    OverlayOp → Overlay × List Element
  | OverlayOp.styling => applyBlockedStyling numEq s.1 s.2
  | OverlayOp.refresh forceRefresh now =>
    let r := markBlockedChallenges numEq forceRefresh now s.1 s.2
    (r.1, r.2.1)
  | OverlayOp.settled req result => settle numEq req result s.1 s.2

/-- Effect of a sequence of operations. -/
def runOps (numEq : String → Int → Bool) (ops : List OverlayOp)
    (s : Overlay × List Element) : Overlay × List Element :=
  ops.foldl (OverlayOp.apply numEq) s

/-! ## Sample data -/

/-- A `.btn` element without `data-challenge-id` whose text is `text`. -/
def plainButton (text : String) : Element :=
  { textContent := text, innerText := text, dataChallengeId := none,
    classList := ["btn"], title := "" }

/-- The entry of the specification's example. -/
def babyRE : Entry :=
  { challenge_id := JsId.num 7, challenge_name := "Baby RE", fail_count := 5, max_attempts := 5 }

/-- A `.btn` element with `data-challenge-id` equal to `i` whose text is `text`. -/
def idButton (i text : String) : Element :=
  { textContent := text, innerText := text, dataChallengeId := some i,
    classList := ["btn"], title := "" }

/-- A first entry for the challenge of id 7. -/
def sevenFirst : Entry :=
  { challenge_id := JsId.num 7, challenge_name := "Alpha", fail_count := 5, max_attempts := 5 }

/-- A second entry for the challenge of id 7. -/
def sevenSecond : Entry :=
  { challenge_id := JsId.num 7, challenge_name := "Beta", fail_count := 2, max_attempts := 9 }

/-- An entry whose name is a word-prefix of `babyRE`. -/
def baby : Entry :=
  { challenge_id := JsId.num 3, challenge_name := "Baby", fail_count := 1, max_attempts := 3 }

/-! ## Timers: `debouncedMarkBlocked`

The script creates timers in two places: line 175 (`() => markBlockedChallenges(true)`) and
line 169 (`() => markBlockedChallenges()`), so a pending timer is described by its handle, the
time it is due and the flag its callback passes. The clock is ideal: a callback runs at the
time its timer is due, and events are handled in time order. -/

/-- A pending timer of the host. -/
structure Timer where
  handle : Nat
  due : Int
  forceRefresh : Bool
  deriving DecidableEq, Repr

/-- One invocation of `markBlockedChallenges`, recorded for the proofs: when, with which
flag, and the fetch it issued. -/
structure Call where
  time : Int
  forceRefresh : Bool
  request : Option Request
  deriving DecidableEq, Repr

/-- The overlay in its host: closure variables, candidate elements, the host's table of
pending timers (in creation order) with the next fresh handle, and the record of the
invocations of `markBlockedChallenges` so far. -/
structure Host where
  ov : Overlay
  page : List Element
  timers : List Timer
  nextHandle : Nat
  calls : List Call
  deriving DecidableEq, Repr

/-- The call `clearTimeout(h)`: no effect for `null` or for a handle that is not pending. -/
def clearTimeout (h : Option Nat) (w : Host) : Host :=
  { w with timers := w.timers.filter (fun t => !(some t.handle == h)) }

/-- The call `setTimeout(() => markBlockedChallenges(forceRefresh), delay)` at time `now`; the handle
returned is `w.nextHandle`. -/
def setTimeout (forceRefresh : Bool) (now delay : Int) (w : Host) : Host :=
  { w with
    timers := w.timers ++ [{ handle := w.nextHandle, due := now + delay,
                             forceRefresh := forceRefresh }]
    nextHandle := w.nextHandle + 1 }

/-- The call `debouncedMarkBlocked()` made at time `now` (lines 167-172). -/
def debouncedMarkBlocked (now : Int) (w : Host) : Host :=
  let w1 := clearTimeout w.ov.debounceTimer w
  let h := w1.nextHandle
  let w2 := setTimeout false now 1000 w1
  { w2 with ov := { w2.ov with debounceTimer := some h } }

/-- A timer callback: `markBlockedChallenges(forceRefresh)` runs at time `now`. -/
def callMark (numEq : String → Int → Bool) (w : Host) (forceRefresh : Bool) (now : Int) : Host :=
  let r := markBlockedChallenges numEq forceRefresh now w.ov w.page
  { w with
    ov := r.1
    page := r.2.1
    calls := w.calls ++ [{ time := now, forceRefresh := forceRefresh, request := r.2.2 }] }

/-- The event loop up to time `T`: the timers due by `T` leave the table and their callbacks
run in order of due time (creation order among equals). The callbacks neither create nor
cancel timers, so taking the due timers out at once is the same as taking them one by one. -/
def advanceTo (numEq : String → Int → Bool) (T : Int) (w : Host) : Host :=
  ((w.timers.filter (fun t => decide (t.due ≤ T))).insertionSort (fun a b => a.due ≤ b.due)).foldl
    (fun w t => callMark numEq w t.forceRefresh t.due)
    { w with timers := w.timers.filter (fun t => !decide (t.due ≤ T)) }

/-- A run of triggers of `debouncedMarkBlocked` at the times `ts`, in order; before each
trigger the event loop has caught up with the trigger's time. -/
def burst (numEq : String → Int → Bool) (ts : List Int) (w : Host) : Host :=
  ts.foldl (fun w t => debouncedMarkBlocked t (advanceTo numEq t w)) w

/-- The pending timers whose callback calls `markBlockedChallenges()` without the flag: the
timers created by `debouncedMarkBlocked`. -/
def debounceTimers (w : Host) : List Timer :=
  w.timers.filter (fun t => !t.forceRefresh)

/-- The recorded invocations without the flag. -/
def unforcedCalls (w : Host) : List Call :=
  w.calls.filter (fun c => !c.forceRefresh)

/-- The host right after the configuration handler has run at time `now`: fresh variables
and the timer of line 175. -/
def Host.start (now : Int) (page : List Element) : Host :=
  setTimeout true now 1000
    { ov := Overlay.initial, page := page, timers := [], nextHandle := 1, calls := [] }

/-- What can happen to the overlay in its host after the configuration handler has run. -/
inductive HostEvent where
  /-- The mutation observer saw a relevant change: `debouncedMarkBlocked()` (line 196). -/
  | trigger (now : Int)
  /-- Time passes: the event loop runs the timers due by `T`. -/
  | tick (T : Int)
  /-- The window gets the focus: `markBlockedChallenges(true)` (line 210). -/
  | focus (now : Int)
  /-- The fetch of `req` settles. -/
  | settled (req : Request) (result : FetchResult)
  /-- The host page changes its candidate elements. -/
  | render (page : List Element)
  deriving DecidableEq, Repr

/-- Effect of one event. -/
def HostEvent.apply (numEq : String → Int → Bool) (w : Host) : HostEvent → Host
  | HostEvent.trigger now => debouncedMarkBlocked now w
  | HostEvent.tick T => advanceTo numEq T w
  | HostEvent.focus now => callMark numEq w true now
  | HostEvent.settled req result =>
    let r := settle numEq req result w.ov w.page
    { w with ov := r.1, page := r.2 }
  | HostEvent.render page => { w with page := page }

/-- Effect of a sequence of events. -/
def runHost (numEq : String → Int → Bool) (events : List HostEvent) (w : Host) : Host :=
  events.foldl (HostEvent.apply numEq) w

/-- Every pending timer without the flag is the one `debounceTimer` refers to. -/
def DebounceInv (w : Host) : Prop :=
  ∀ x ∈ w.timers, x.forceRefresh = false → w.ov.debounceTimer = some x.handle

/-- State right after a trigger at time `t`: one debounce timer, due at `t + 1000`, and
`debounceTimer` holds its handle. -/
def AfterTrigger (t : Int) (w : Host) : Prop :=
  ∃ h, debounceTimers w = [{ handle := h, due := t + 1000, forceRefresh := false }] ∧
    w.ov.debounceTimer = some h

/-! ## The document tree: bootstrap and style injection (lines 1-84)

Only what the selectors of these lines look at is kept of an element: its tag, its id (the
empty string when it has none) and its classes. A forest of elements is a first child with
its next siblings, so document order is: the element, its children, its next siblings. -/

/-- Tag, id and classes of an element. -/
structure Tag where
  name : String
  id : String
  classes : List String
  deriving DecidableEq, Repr

/-- A list of sibling elements, each with its children. -/
inductive Dom where
  | nil
  | node (e : Tag) (children : Dom) (siblings : Dom)
  deriving DecidableEq, Repr

/-- Number of elements satisfying `p`. -/
def Dom.count (p : Tag → Bool) : Dom → Nat
  | Dom.nil => 0
  | Dom.node e children siblings =>
    (if p e then 1 else 0) + Dom.count p children + Dom.count p siblings

/-- Number of elements with id `i`. -/
def countId (i : String) (doc : Dom) : Nat :=
  doc.count (fun e => e.id == i)

/-- Number of `style` elements with id `i`. -/
def countStyle (i : String) (doc : Dom) : Nat :=
  doc.count (fun e => e.name == "style" && e.id == i)

/-- Whether `document.querySelector('#' + i)` finds an element. -/
def hasId (i : String) : Dom → Bool
  | Dom.nil => false
  | Dom.node e children siblings => e.id == i || hasId i children || hasId i siblings

/-- Whether `document.querySelector('.row > .col-md-12')` finds an element; `parentRow` tells
whether the parent of the forest has class `row`. -/
def hasContainer (parentRow : Bool) : Dom → Bool
  | Dom.nil => false
  | Dom.node e children siblings =>
    (parentRow && decide ("col-md-12" ∈ e.classes)) ||
      hasContainer (decide ("row" ∈ e.classes)) children || hasContainer parentRow siblings

/-- The wrapper built at lines 6-23, with the button, its icon and its label, put before the
elements `rest`. -/
def wrapperBefore (rest : Dom) : Dom :=
  Dom.node
    { name := "div", id := "btn-unblock-wrapper",
      classes := ["d-flex", "justify-content-center", "mb-4"] }
    (Dom.node
      { name := "a", id := "btn-unblock-page",
        classes := ["btn", "btn-info", "text-white", "shadow", "rounded-pill", "px-4", "py-2",
          "fw-semibold", "d-inline-flex", "align-items-center", "gap-2", "transition"] }
      (Dom.node { name := "i", id := "", classes := ["fa", "fa-user-lock", "action-icon"] }
        Dom.nil
        (Dom.node { name := "span", id := "", classes := [] } Dom.nil Dom.nil))
      Dom.nil)
    rest

/-- The call `container.prepend(wrapper)` for `container` the first element in document order matching
`.row > .col-md-12`; `none` when there is no such element. -/
def prependWrapper (parentRow : Bool) : Dom → Option Dom
  | Dom.nil => none
  | Dom.node e children siblings =>
    if parentRow && decide ("col-md-12" ∈ e.classes) then
      some (Dom.node e (wrapperBefore children) siblings)
    else
      match prependWrapper (decide ("row" ∈ e.classes)) children with
      | some children' => some (Dom.node e children' siblings)
      | none =>
        match prependWrapper parentRow siblings with
        | some siblings' => some (Dom.node e children siblings')
        | none => none

/-- The call `parent.appendChild(n)` on the children of `parent`, for a fresh element `n`. -/
def appendChild (n : Tag) : Dom → Dom
  | Dom.nil => Dom.node n Dom.nil Dom.nil
  | Dom.node e children siblings => Dom.node e children (appendChild n siblings)

/-- Appends `n` to the first `head` element among the siblings `d`. -/
def appendToFirstHead (n : Tag) : Dom → Option Dom
  | Dom.nil => none
  | Dom.node e children siblings =>
    if e.name = "head" then some (Dom.node e (appendChild n children) siblings)
    else
      match appendToFirstHead n siblings with
      | some siblings' => some (Dom.node e children siblings')
      | none => none

/-- The call `document.head.appendChild(n)`: `document.head` is the first `head` child of the document
element; `none` when it is `null`, in which case the call throws. -/
def appendToHead (n : Tag) : Dom → Option Dom
  | Dom.nil => none
  | Dom.node e children siblings =>
    match appendToFirstHead n children with
    | some children' => some (Dom.node e children' siblings)
    | none => none

/-- The style element of lines 28-29. -/
def customUnblockStyle : Tag :=
  { name := "style", id := "custom-unblock-style", classes := [] }

/-- The style element of lines 50-51. -/
def blockedChallengesStyle : Tag :=
  { name := "style", id := "blocked-challenges-style", classes := [] }

/-- The synchronous part of the script up to the configuration fetch (lines 1-43): the
document it leaves, and whether the fetch of line 43 is reached (it is not on another path,
nor when line 38 throws). -/
def bootstrap (pathname : String) (doc : Dom) : Dom × Bool :=
  if pathname = "/challenges" then
    if hasContainer false doc && !hasId "btn-unblock-page" doc then
      let doc1 := (prependWrapper false doc).getD doc
      if !hasId "custom-unblock-style" doc1 then
        match appendToHead customUnblockStyle doc1 with
        | some doc2 => (doc2, true)
        | none => (doc1, false)
      else (doc1, true)
    else (doc, true)
  else (doc, false)

/-- How the configuration fetch settles: rejected (network error, body that is not JSON) or
fulfilled with a configuration. -/
inductive ConfigResult where
  | failed
  | config (highlight_blocked_challenges : Bool)
  deriving DecidableEq, Repr

/-- Effect on the document of the configuration handler (lines 47-84); when line 84 throws,
the `catch` of line 225 takes over and the document stays as it is. -/
def onConfig (highlight_blocked_challenges : Bool) (doc : Dom) : Dom :=
  if highlight_blocked_challenges then
    (appendToHead blockedChallengesStyle doc).getD doc
  else doc

/-- One execution of the script on `doc`, its configuration fetch settling as `cfg`. -/
def runScript (pathname : String) (doc : Dom) (cfg : ConfigResult) : Dom :=
  let r := bootstrap pathname doc
  if r.2 then
    match cfg with
    | ConfigResult.config h => onConfig h r.1
    | ConfigResult.failed => r.1
  else r.1

/-- Repeated executions of the script on the same document, one per element of `cfgs`. -/
def runScripts (pathname : String) (cfgs : List ConfigResult) (doc : Dom) : Dom :=
  cfgs.foldl (runScript pathname) doc

/-- A leaf element. -/
def leaf (name : String) (classes : List String) (siblings : Dom) : Dom :=
  Dom.node { name := name, id := "", classes := classes } Dom.nil siblings

/-- A document `html > (head, body > div.row > div.col-md-12)`. -/
def challengesDoc : Dom :=
  Dom.node { name := "html", id := "", classes := [] }
    (leaf "head" []
      (Dom.node { name := "body", id := "", classes := [] }
        (Dom.node { name := "div", id := "", classes := ["row"] }
          (leaf "div" ["col-md-12"] Dom.nil) Dom.nil)
        Dom.nil))
    Dom.nil

/-- A document `html > (head, body > div.container)`: no `.row > .col-md-12`. -/
def otherThemeDoc : Dom :=
  Dom.node { name := "html", id := "", classes := [] }
    (leaf "head" []
      (Dom.node { name := "body", id := "", classes := [] }
        (leaf "div" ["container"] Dom.nil) Dom.nil))
    Dom.nil

/-! ## Styling: lemmas -/

theorem classListAdd_mem (c x : String) (l : List String) (h : x ∈ l) : x ∈ classListAdd c l := by
  unfold classListAdd
  split
  · exact h
  · exact List.mem_append_left _ h

theorem classListAdd_idem (c : String) (l : List String) :
    classListAdd c (classListAdd c l) = classListAdd c l := by
  unfold classListAdd
  by_cases h : c ∈ l <;> simp [h]

theorem markBlocked_markBlocked (b : Element) (c d : Entry) :
    markBlocked (markBlocked b c) d = markBlocked b d := by
  simp [markBlocked, classListAdd_idem]

theorem foldl_innerStep_fst (numEq : String → Int → Bool) (btn : Element) (cache : List Entry) :
    ∀ acc : Element × List String,
      (cache.foldl (innerStep numEq btn) acc).1 = styledElement numEq cache acc.1 btn := by
  induction cache with
  | nil => intro acc; simp [styledElement]
  | cons c cs ih =>
    intro acc
    rw [List.foldl_cons, ih]
    by_cases hm : entryMatches numEq btn c = true
    · simp only [innerStep, hm, if_true, styledElement, List.filter_cons_of_pos hm]
      rw [List.getLast?_cons]
      cases h : (List.filter (entryMatches numEq btn) cs).getLast? with
      | none => simp
      | some d => simp [markBlocked_markBlocked]
    · simp only [innerStep, hm, styledElement]
      simp [hm]

theorem foldl_innerStep_snd (numEq : String → Int → Bool) (btn : Element) (cache : List Entry) :
    ∀ acc : Element × List String, ∀ k,
      k ∈ (cache.foldl (innerStep numEq btn) acc).2 → k ∈ acc.2 ∨ k = buttonKey btn := by
  induction cache with
  | nil => intro acc k h; exact Or.inl h
  | cons c cs ih =>
    intro acc k h
    rw [List.foldl_cons] at h
    rcases ih _ k h with h1 | h1
    · unfold innerStep at h1
      split at h1
      · simp only [setAdd] at h1
        split at h1
        · exact Or.inl h1
        · rcases List.mem_append.1 h1 with h2 | h2
          · exact Or.inl h2
          · exact Or.inr (by simpa using h2)
      · exact Or.inl h1
    · exact Or.inr h1

theorem styledElement_cases (numEq : String → Int → Bool) (cache : List Entry) (cur btn : Element) :
    styledElement numEq cache cur btn = cur ∨
      ∃ c ∈ cache, entryMatches numEq btn c = true ∧
        styledElement numEq cache cur btn = markBlocked cur c := by
  unfold styledElement
  cases h : (cache.filter (entryMatches numEq btn)).getLast? with
  | none => exact Or.inl rfl
  | some c =>
    have hc : c ∈ cache.filter (entryMatches numEq btn) := List.mem_of_getLast?_eq_some h
    rw [List.mem_filter] at hc
    exact Or.inr ⟨c, hc.1, hc.2, rfl⟩

theorem styleButton_fst_fresh (numEq : String → Int → Bool) (cache : List Entry)
    (marked : List String) (btn : Element) (h : buttonKey btn ∉ marked) :
    (styleButton numEq cache marked btn).1 = styledElement numEq cache btn btn := by
  simp [styleButton, h, foldl_innerStep_fst]

theorem styleButton_cases (numEq : String → Int → Bool) (cache : List Entry)
    (marked : List String) (btn : Element) :
    (styleButton numEq cache marked btn).1 = btn ∨
      ∃ c ∈ cache, entryMatches numEq btn c = true ∧
        (styleButton numEq cache marked btn).1 = markBlocked btn c := by
  by_cases h : buttonKey btn ∈ marked
  · left; simp [styleButton, h]
  · rw [styleButton_fst_fresh numEq cache marked btn h]
    exact styledElement_cases numEq cache btn btn

theorem styleButton_snd (numEq : String → Int → Bool) (cache : List Entry)
    (marked : List String) (btn : Element) (k : String)
    (h : k ∈ (styleButton numEq cache marked btn).2) : k ∈ marked ∨ k = buttonKey btn := by
  unfold styleButton at h
  split at h
  · exact Or.inl h
  · exact foldl_innerStep_snd numEq btn cache _ k h

theorem styleAll_length (numEq : String → Int → Bool) (cache : List Entry) :
    ∀ (page : List Element) (marked : List String),
      (styleAll numEq cache marked page).1.length = page.length := by
  intro page
  induction page with
  | nil => intro marked; rfl
  | cons b bs ih => intro marked; simp [styleAll, ih]

theorem styleAll_get_cases (numEq : String → Int → Bool) (cache : List Entry) :
    ∀ (page : List Element) (marked : List String) (i : Nat) (b : Element),
      page[i]? = some b →
      ∃ b', (styleAll numEq cache marked page).1[i]? = some b' ∧
        (b' = b ∨ ∃ c ∈ cache, entryMatches numEq b c = true ∧ b' = markBlocked b c) := by
  intro page
  induction page with
  | nil => intro marked i b h; simp at h
  | cons b0 bs ih =>
    intro marked i b h
    cases i with
    | zero =>
      simp at h
      subst h
      exact ⟨(styleButton numEq cache marked b0).1, by simp [styleAll],
        styleButton_cases numEq cache marked b0⟩
    | succ j =>
      simp at h
      obtain ⟨b', h1, h2⟩ := ih (styleButton numEq cache marked b0).2 j b h
      exact ⟨b', by simpa [styleAll] using h1, h2⟩

theorem styleAll_get_reached (numEq : String → Int → Bool) (cache : List Entry) :
    ∀ (page : List Element) (marked : List String) (i : Nat) (b : Element),
      page[i]? = some b →
      buttonKey b ∉ (styleAll numEq cache marked (page.take i)).2 →
      (styleAll numEq cache marked page).1[i]? = some (styledElement numEq cache b b) := by
  intro page
  induction page with
  | nil => intro marked i b h; simp at h
  | cons b0 bs ih =>
    intro marked i b h hfresh
    cases i with
    | zero =>
      simp at h
      subst h
      have hfresh0 : buttonKey b0 ∉ marked := by simpa [styleAll] using hfresh
      simp [styleAll, styleButton_fst_fresh numEq cache marked b0 hfresh0]
    | succ j =>
      simp at h
      have hfresh1 : buttonKey b ∉
          (styleAll numEq cache (styleButton numEq cache marked b0).2 (bs.take j)).2 := by
        simpa [styleAll] using hfresh
      have := ih (styleButton numEq cache marked b0).2 j b h hfresh1
      simpa [styleAll] using this

theorem styleAll_marked_subset (numEq : String → Int → Bool) (cache : List Entry) :
    ∀ (page : List Element) (marked : List String) (k : String),
      k ∈ (styleAll numEq cache marked page).2 →
      k ∈ marked ∨ ∃ b ∈ page, buttonKey b = k := by
  intro page
  induction page with
  | nil => intro marked k h; exact Or.inl h
  | cons b0 bs ih =>
    intro marked k h
    rcases ih (styleButton numEq cache marked b0).2 k (by simpa [styleAll] using h) with h1 | h1
    · rcases styleButton_snd numEq cache marked b0 k h1 with h2 | h2
      · exact Or.inl h2
      · exact Or.inr ⟨b0, by simp, h2.symm⟩
    · obtain ⟨b, hb, hk⟩ := h1
      exact Or.inr ⟨b, List.mem_cons_of_mem _ hb, hk⟩

/-- A key that is not in the memo set before the pass and is the key of no earlier element
of the page is not in the set when the pass reaches the element. -/
theorem markedWhenReached_fresh (numEq : String → Int → Bool) (ov : Overlay)
    (page : List Element) (i : Nat) (k : String) (hk : k ∉ ov.markedButtons)
    (hfirst : ∀ j b', j < i → page[j]? = some b' → buttonKey b' ≠ k) :
    k ∉ markedWhenReached numEq ov page i := by
  intro hmem
  rcases styleAll_marked_subset numEq _ _ _ k hmem with h | ⟨b, hb, hkey⟩
  · exact hk h
  · obtain ⟨j, hj⟩ := List.mem_iff_getElem?.1 hb
    rw [List.getElem?_take] at hj
    split at hj
    · rename_i hlt
      exact hfirst j b hlt hj hkey
    · simp at hj

theorem applyBlockedStyling_get_cases (numEq : String → Int → Bool) (ov : Overlay)
    (page : List Element) (i : Nat) (b : Element) (h : page[i]? = some b) :
    ∃ b', (applyBlockedStyling numEq ov page).2[i]? = some b' ∧
      (b' = b ∨ ∃ c ∈ ov.blockedChallengesCache,
        entryMatches numEq b c = true ∧ b' = markBlocked b c) := by
  unfold applyBlockedStyling
  split
  · exact ⟨b, h, Or.inl rfl⟩
  · exact styleAll_get_cases numEq _ page _ i b h

/-! ## Styling and refresh policy: theorems -/

theorem entryMatches_iff (numEq : String → Int → Bool) (btn : Element) (c : Entry) :
    entryMatches numEq btn c = true ↔ SpecMatch numEq btn c := by
  simp [entryMatches, isExactMatch, SpecMatch, startsWith, String.singleton, or_assoc]

theorem classListAdd_mem_self (c : String) (l : List String) : c ∈ classListAdd c l := by
  unfold classListAdd
  split
  · assumption
  · simp

theorem applyBlockedStyling_overlay (numEq : String → Int → Bool) (ov : Overlay)
    (page : List Element) :
    (applyBlockedStyling numEq ov page).1.blockedChallengesCache = ov.blockedChallengesCache ∧
    (applyBlockedStyling numEq ov page).1.lastBlockedUpdate = ov.lastBlockedUpdate ∧
    (applyBlockedStyling numEq ov page).1.lastChallengeCount = ov.lastChallengeCount ∧
    (applyBlockedStyling numEq ov page).1.debounceTimer = ov.debounceTimer := by
  unfold applyBlockedStyling
  split <;> simp

theorem applyBlockedStyling_keeps_blocked (numEq : String → Int → Bool) (ov : Overlay)
    (page : List Element) (i : Nat) (b : Element) (h : page[i]? = some b)
    (hb : "blocked" ∈ b.classList) :
    ∃ b', (applyBlockedStyling numEq ov page).2[i]? = some b' ∧ "blocked" ∈ b'.classList := by
  obtain ⟨b', h1, h2⟩ := applyBlockedStyling_get_cases numEq ov page i b h
  refine ⟨b', h1, ?_⟩
  rcases h2 with h2 | ⟨c, _, _, h2⟩
  · rw [h2]; exact hb
  · rw [h2]; exact classListAdd_mem _ _ _ hb

theorem apply_keeps_blocked (numEq : String → Int → Bool) (op : OverlayOp)
    (s : Overlay × List Element) (i : Nat) (b : Element) (h : s.2[i]? = some b)
    (hb : "blocked" ∈ b.classList) :
    ∃ b', (op.apply numEq s).2[i]? = some b' ∧ "blocked" ∈ b'.classList := by
  cases op with
  | styling => exact applyBlockedStyling_keeps_blocked numEq s.1 s.2 i b h hb
  | refresh forceRefresh now =>
    simp only [OverlayOp.apply, markBlockedChallenges]
    split
    · exact ⟨b, h, hb⟩
    · exact applyBlockedStyling_keeps_blocked numEq s.1 s.2 i b h hb
  | settled req result =>
    cases result with
    | networkError => exact ⟨b, h, hb⟩
    | invalidJson => exact ⟨b, h, hb⟩
    | json body => exact applyBlockedStyling_keeps_blocked numEq _ s.2 i b h hb

/-- C1 (evaluation at the failing input): after a successful refresh installing `babyRE` on a
page of two candidate elements that both read "Baby RE" and carry no id, the first is marked
and the second, although it matches the entry, is left exactly as it was: the memo key
`no-id-Baby RE` added for the first makes the pass skip the second. -/
theorem second_element_with_same_key_unmarked (numEq : String → Int → Bool) :
    entryMatches numEq (plainButton "Baby RE") babyRE = true ∧
    (onBlocked numEq ⟨1000, 2⟩ (some [babyRE]) Overlay.initial
      [plainButton "Baby RE", plainButton "Baby RE"]).2 =
      [markBlocked (plainButton "Baby RE") babyRE, plainButton "Baby RE"] ∧
    "blocked" ∉ (plainButton "Baby RE").classList := by
  refine ⟨?_, ?_, ?_⟩
  · rfl
  · rfl
  · decide

/-- C2: a styling pass changes a candidate element only if some cached entry matches it in
the specification's sense (equal trimmed text, name followed by a space or a line break, or
equal id); an element that no cached entry matches in that sense, such as one whose text
merely contains a name or extends it by another character, is left exactly as it was. -/
theorem applyBlockedStyling_marks_only_matches (numEq : String → Int → Bool) (ov : Overlay)
    (page : List Element) (i : Nat) (b b' : Element) (hb : page[i]? = some b)
    (hb' : (applyBlockedStyling numEq ov page).2[i]? = some b') :
    (b' ≠ b → ∃ c ∈ ov.blockedChallengesCache, SpecMatch numEq b c) ∧
    ((∀ c ∈ ov.blockedChallengesCache, ¬ SpecMatch numEq b c) →
      b' = b ∧ b'.classList = b.classList ∧ b'.title = b.title) := by
  obtain ⟨e, h1, h2⟩ := applyBlockedStyling_get_cases numEq ov page i b hb
  rw [h1] at hb'
  have he : e = b' := Option.some.inj hb'
  subst he
  have key : e ≠ b → ∃ c ∈ ov.blockedChallengesCache, SpecMatch numEq b c := by
    intro hne
    rcases h2 with h2 | ⟨c, hc, hm, _⟩
    · exact absurd h2 hne
    · exact ⟨c, hc, (entryMatches_iff numEq b c).1 hm⟩
  refine ⟨key, fun hno => ?_⟩
  have : e = b := by
    by_contra hne
    obtain ⟨c, hc, hm⟩ := key hne
    exact hno c hc hm
  subst this
  exact ⟨rfl, rfl, rfl⟩

/-- C2, at the specification's examples: against the entry named "Baby RE", elements reading
"Baby REX" and "My Baby RE" without id stay as they are. -/
theorem applyBlockedStyling_marks_only_matches_witness :
    ((applyBlockedStyling decimalNumEq { Overlay.initial with blockedChallengesCache := [babyRE] }
        [plainButton "Baby REX", plainButton "My Baby RE"]).2[1]? =
        some (plainButton "My Baby RE")) ∧
    (plainButton "My Baby RE" = plainButton "My Baby RE" ∧
      (plainButton "My Baby RE").classList = (plainButton "My Baby RE").classList ∧
      (plainButton "My Baby RE").title = (plainButton "My Baby RE").title) :=
  ⟨by decide,
   (applyBlockedStyling_marks_only_matches decimalNumEq
      { Overlay.initial with blockedChallengesCache := [babyRE] }
      [plainButton "Baby REX", plainButton "My Baby RE"] 1
      (plainButton "My Baby RE") (plainButton "My Baby RE") (by decide) (by decide)).2
      (by
        intro c hc
        simp only [Overlay.initial, List.mem_singleton] at hc
        subst hc
        rw [← entryMatches_iff]
        decide)⟩

theorem onBlocked_overlay (numEq : String → Int → Bool) (req : Request)
    (body : Option (List Entry)) (ov : Overlay) (page : List Element) :
    (onBlocked numEq req body ov page).1.lastBlockedUpdate = req.currentTime ∧
    (onBlocked numEq req body ov page).1.lastChallengeCount = req.currentCount := by
  unfold onBlocked
  exact ⟨(applyBlockedStyling_overlay numEq _ page).2.1,
    (applyBlockedStyling_overlay numEq _ page).2.2.1⟩

/-- C3: once a successful refresh started at `req.currentTime` with candidate count
`req.currentCount` has resolved, a call `markBlockedChallenges(force)` at time `t1` on a page of
`page'.length` candidates issues a fetch exactly when `force` is true, or more than 60000 ms
have passed, or the count differs; in that case it only issues the fetch, and otherwise it
issues none and its effect is that of `applyBlockedStyling` on the existing cache. -/
theorem markBlockedChallenges_after_success (numEq : String → Int → Bool) (req : Request)
    (body : Option (List Entry)) (ov : Overlay) (page page' : List Element)
    (force : Bool) (t1 : Int) :
    (((markBlockedChallenges numEq force t1 (onBlocked numEq req body ov page).1 page').2.2).isSome
        = true ↔
      (force = true ∨ t1 - req.currentTime > 60000 ∨ page'.length ≠ req.currentCount)) ∧
    markBlockedChallenges numEq force t1 (onBlocked numEq req body ov page).1 page' =
      (if force = true ∨ t1 - req.currentTime > 60000 ∨ page'.length ≠ req.currentCount then
        ((onBlocked numEq req body ov page).1, page',
          some { currentTime := t1, currentCount := page'.length })
      else
        ((applyBlockedStyling numEq (onBlocked numEq req body ov page).1 page').1,
          (applyBlockedStyling numEq (onBlocked numEq req body ov page).1 page').2, none)) := by
  obtain ⟨h1, h2⟩ := onBlocked_overlay numEq req body ov page
  by_cases hc : force = true ∨ t1 - req.currentTime > 60000 ∨ page'.length ≠ req.currentCount
  · have hs : shouldRefreshData force t1 page'.length (onBlocked numEq req body ov page).1
        = true := by
      simp only [shouldRefreshData, h1, h2, Bool.or_eq_true, decide_eq_true_eq]
      tauto
    simp [markBlockedChallenges, hs, hc]
  · have hs : shouldRefreshData force t1 page'.length (onBlocked numEq req body ov page).1
        = false := by
      rw [← Bool.not_eq_true]
      simp only [shouldRefreshData, h1, h2, Bool.or_eq_true, decide_eq_true_eq]
      tauto
    simp [markBlockedChallenges, hs, hc]

/-- C4: when the fetch issued by a refresh at time `now` fails (network error or a body that
is not JSON), the handlers leave, whatever the state `ov'` and page `page'` they find, the
cache empty and the timestamp equal to `now`; the candidate elements are untouched, by the
refresh call itself and by the failure handler. The chain always produces this state: no
error leaves it. -/
theorem failed_fetch_empties_cache (numEq : String → Int → Bool) (force : Bool) (now : Int)
    (ov : Overlay) (page : List Element) (req : Request) (result : FetchResult)
    (ov' : Overlay) (page' : List Element)
    (hreq : (markBlockedChallenges numEq force now ov page).2.2 = some req)
    (hfail : result.failed = true) :
    (markBlockedChallenges numEq force now ov page).1 = ov ∧
    (markBlockedChallenges numEq force now ov page).2.1 = page ∧
    settle numEq req result ov' page' =
      ({ ov' with blockedChallengesCache := [], lastBlockedUpdate := now }, page') ∧
    (settle numEq req result ov' page').1.blockedChallengesCache = [] ∧
    (settle numEq req result ov' page').1.lastBlockedUpdate = now ∧
    (settle numEq req result ov' page').2 = page' := by
  by_cases hs : shouldRefreshData force now page.length ov = true
  · have hq : req = { currentTime := now, currentCount := page.length } := by
      simpa [markBlockedChallenges, hs] using hreq.symm
    subst hq
    cases result with
    | json body => simp [FetchResult.failed] at hfail
    | networkError => simp [markBlockedChallenges, hs, settle, onBlockedError]
    | invalidJson => simp [markBlockedChallenges, hs, settle, onBlockedError]
  · simp [markBlockedChallenges, hs] at hreq

/-- C4 at a concrete input: a forced refresh at time 1000 whose fetch meets a network error. -/
theorem failed_fetch_empties_cache_witness :
    settle decimalNumEq ⟨1000, 1⟩ FetchResult.networkError
        { Overlay.initial with blockedChallengesCache := [babyRE] } [plainButton "Baby RE"] =
      ({ Overlay.initial with blockedChallengesCache := [], lastBlockedUpdate := 1000 },
        [plainButton "Baby RE"]) :=
  (failed_fetch_empties_cache decimalNumEq true 1000 Overlay.initial [plainButton "Baby RE"]
    ⟨1000, 1⟩ FetchResult.networkError
    { Overlay.initial with blockedChallengesCache := [babyRE] } [plainButton "Baby RE"]
    (by decide) (by decide)).2.2.1

/-- C5 (counterexample): with the cache `[baby, babyRE]`, an element reading "Baby RE" is
matched by both entries; the first matching entry is `baby` (1/3), yet after the pass the
tooltip is the one of `babyRE` (5/5). -/
theorem first_match_does_not_win :
    ([baby, babyRE].find? (entryMatches decimalNumEq (plainButton "Baby RE")) = some baby) ∧
    entryMatches decimalNumEq (plainButton "Baby RE") babyRE = true ∧
    ((applyBlockedStyling decimalNumEq
        { Overlay.initial with blockedChallengesCache := [baby, babyRE] }
        [plainButton "Baby RE"]).2.map (fun b => b.title)
      = ["🔒 Challenge bloqué (5/5 tentatives)"]) ∧
    tooltip baby = "🔒 Challenge bloqué (1/3 tentatives)" ∧
    tooltip baby ≠ "🔒 Challenge bloqué (5/5 tentatives)" := by
  decide

/-- C5 (amended): when several cached entries match a candidate element and the pass
processes it, that is, its memo key is not in the memo set at the moment the pass reaches it
(`markedWhenReached`), the element ends with class `blocked` and the tooltip of the last entry
of the cache that matches it: every later match overwrites the tooltip of the earlier ones. -/
theorem last_match_wins (numEq : String → Int → Bool) (ov : Overlay) (page : List Element)
    (i : Nat) (b : Element) (c : Entry)
    (hb : page[i]? = some b)
    (hfresh : buttonKey b ∉ markedWhenReached numEq ov page i)
    (hlast : (ov.blockedChallengesCache.filter (entryMatches numEq b)).getLast? = some c) :
    (applyBlockedStyling numEq ov page).2[i]? = some (markBlocked b c) ∧
    (markBlocked b c).title = tooltip c ∧ "blocked" ∈ (markBlocked b c).classList := by
  have hne : ov.blockedChallengesCache.length ≠ 0 := by
    intro h0
    rw [List.length_eq_zero] at h0
    rw [h0] at hlast
    simp at hlast
  refine ⟨?_, rfl, classListAdd_mem_self _ _⟩
  unfold applyBlockedStyling
  rw [if_neg hne]
  have := styleAll_get_reached numEq ov.blockedChallengesCache page ov.markedButtons i b hb
    hfresh
  simpa [styledElement, hlast] using this

/-- C5 (amended) at a page where an earlier, unmatched element has the same memo key
`7-Baby-RE` as the element of id 7: the memo set is still empty when the pass reaches the
second element, which ends with the tooltip of the second of the two entries of id 7. -/
theorem last_match_wins_witness :
    buttonKey (idButton "7-Baby" "RE") = buttonKey (idButton "7" "Baby-RE") ∧
    (applyBlockedStyling decimalNumEq
        { Overlay.initial with blockedChallengesCache := [sevenFirst, sevenSecond] }
        [idButton "7-Baby" "RE", idButton "7" "Baby-RE"]).2[1]? =
      some (markBlocked (idButton "7" "Baby-RE") sevenSecond) ∧
    (markBlocked (idButton "7" "Baby-RE") sevenSecond).title =
      "🔒 Challenge bloqué (2/9 tentatives)" :=
  ⟨by decide,
   (last_match_wins decimalNumEq
      { Overlay.initial with blockedChallengesCache := [sevenFirst, sevenSecond] }
      [idButton "7-Baby" "RE", idButton "7" "Baby-RE"] 1 (idButton "7" "Baby-RE") sevenSecond
      (by decide) (by decide) (by decide)).1,
   by decide⟩

/-- C6 (evaluation at the failing input): on a page with one candidate element, the first
(forced) refresh at time 1000 issues a fetch; the fetch fails, which leaves
`lastChallengeCount` at 0; the non-forced call at time 2000 on the same page, 1000 ms later,
issues a fetch again, because the count 1 differs from 0. -/
theorem failed_fetch_refetches_within_a_minute (numEq : String → Int → Bool) :
    (markBlockedChallenges numEq true 1000 Overlay.initial [plainButton "Baby RE"]).2.2 =
      some ⟨1000, 1⟩ ∧
    (settle numEq ⟨1000, 1⟩ FetchResult.networkError Overlay.initial
      [plainButton "Baby RE"]).1.lastChallengeCount = 0 ∧
    (markBlockedChallenges numEq false 2000
      (settle numEq ⟨1000, 1⟩ FetchResult.networkError Overlay.initial
        [plainButton "Baby RE"]).1 [plainButton "Baby RE"]).2.2 = some ⟨2000, 1⟩ := by
  refine ⟨rfl, rfl, rfl⟩

/-- C10: whatever sequence of styling passes, refresh calls and settled fetches (successful
with any list, the empty one included, or failed) the overlay goes through, a candidate
element that has class `blocked` still has it afterwards, and the page keeps its length. -/
theorem blocked_is_never_removed (numEq : String → Int → Bool) (ops : List OverlayOp)
    (ov : Overlay) (page : List Element) (i : Nat) (b : Element)
    (hb : page[i]? = some b) (hblocked : "blocked" ∈ b.classList) :
    ∃ b', (runOps numEq ops (ov, page)).2[i]? = some b' ∧ "blocked" ∈ b'.classList := by
  unfold runOps
  induction ops generalizing ov page b with
  | nil => exact ⟨b, hb, hblocked⟩
  | cons op ops ih =>
    obtain ⟨b1, h1, h2⟩ := apply_keeps_blocked numEq op (ov, page) i b hb hblocked
    rw [List.foldl_cons]
    exact ih (op.apply numEq (ov, page)).1 (op.apply numEq (ov, page)).2 b1 h1 h2

/-- C10 at a concrete run: an element marked by a first refresh keeps its class through a
second refresh whose list is empty, a failed one and a further styling pass. -/
theorem blocked_is_never_removed_witness :
    ∃ b', (runOps decimalNumEq
        [OverlayOp.settled ⟨2000, 1⟩ (FetchResult.json (some [])),
         OverlayOp.settled ⟨3000, 1⟩ FetchResult.invalidJson,
         OverlayOp.refresh false 3500, OverlayOp.styling]
        (Overlay.initial, [markBlocked (plainButton "Baby RE") babyRE])).2[0]? = some b' ∧
      "blocked" ∈ b'.classList :=
  blocked_is_never_removed decimalNumEq _ Overlay.initial
    [markBlocked (plainButton "Baby RE") babyRE] 0 (markBlocked (plainButton "Baby RE") babyRE)
    (by decide) (by decide)

/-! ## Debounce -/

theorem markBlockedChallenges_debounceTimer (numEq : String → Int → Bool) (force : Bool)
    (now : Int) (ov : Overlay) (page : List Element) :
    (markBlockedChallenges numEq force now ov page).1.debounceTimer = ov.debounceTimer := by
  unfold markBlockedChallenges
  simp only
  split
  · rfl
  · exact (applyBlockedStyling_overlay numEq ov page).2.2.2

theorem settle_debounceTimer (numEq : String → Int → Bool) (req : Request)
    (result : FetchResult) (ov : Overlay) (page : List Element) :
    (settle numEq req result ov page).1.debounceTimer = ov.debounceTimer := by
  cases result with
  | networkError => rfl
  | invalidJson => rfl
  | json body => exact (applyBlockedStyling_overlay numEq _ page).2.2.2

theorem callMark_timers (numEq : String → Int → Bool) (w : Host) (force : Bool) (now : Int) :
    (callMark numEq w force now).timers = w.timers ∧
    (callMark numEq w force now).ov.debounceTimer = w.ov.debounceTimer := by
  exact ⟨rfl, markBlockedChallenges_debounceTimer numEq force now w.ov w.page⟩

theorem unforcedCalls_callMark (numEq : String → Int → Bool) (w : Host) (force : Bool)
    (now : Int) :
    ∃ cs, unforcedCalls (callMark numEq w force now) = unforcedCalls w ++ cs ∧
      cs.map (fun c => c.time) = (if force then [] else [now]) := by
  cases force
  · exact ⟨[{ time := now, forceRefresh := false,
              request := (markBlockedChallenges numEq false now w.ov w.page).2.2 }],
      by simp [unforcedCalls, callMark, List.filter_append], by simp⟩
  · exact ⟨[], by simp [unforcedCalls, callMark, List.filter_append], by simp⟩

theorem foldl_callMark (numEq : String → Int → Bool) (l : List Timer) :
    ∀ w : Host,
      (l.foldl (fun w t => callMark numEq w t.forceRefresh t.due) w).timers = w.timers ∧
      (l.foldl (fun w t => callMark numEq w t.forceRefresh t.due) w).ov.debounceTimer
        = w.ov.debounceTimer ∧
      ∃ cs, unforcedCalls (l.foldl (fun w t => callMark numEq w t.forceRefresh t.due) w) =
          unforcedCalls w ++ cs ∧
        cs.map (fun c => c.time) =
          (l.filter (fun t => !t.forceRefresh)).map (fun t => t.due) := by
  induction l with
  | nil => intro w; exact ⟨rfl, rfl, [], by simp, by simp⟩
  | cons t l ih =>
    intro w
    rw [List.foldl_cons]
    obtain ⟨h1, h2, cs, h3, h4⟩ := ih (callMark numEq w t.forceRefresh t.due)
    obtain ⟨cs0, h5, h6⟩ := unforcedCalls_callMark numEq w t.forceRefresh t.due
    refine ⟨h1.trans (callMark_timers numEq w _ _).1, h2.trans (callMark_timers numEq w _ _).2,
      cs0 ++ cs, ?_, ?_⟩
    · rw [h3, h5, List.append_assoc]
    · rw [List.map_append, h4, h6]
      cases hf : t.forceRefresh <;> simp [hf]

theorem advanceTo_timers (numEq : String → Int → Bool) (T : Int) (w : Host) :
    (advanceTo numEq T w).timers = w.timers.filter (fun t => !decide (t.due ≤ T)) ∧
    (advanceTo numEq T w).ov.debounceTimer = w.ov.debounceTimer := by
  unfold advanceTo
  exact ⟨(foldl_callMark numEq _ _).1, (foldl_callMark numEq _ _).2.1⟩

theorem debounceTimers_advanceTo (numEq : String → Int → Bool) (T : Int) (w : Host) :
    debounceTimers (advanceTo numEq T w) =
      (debounceTimers w).filter (fun t => !decide (t.due ≤ T)) := by
  unfold debounceTimers
  rw [(advanceTo_timers numEq T w).1, List.filter_filter, List.filter_filter]
  congr 1
  funext t
  exact Bool.and_comm _ _

theorem eq_of_perm_of_length_le_one {α : Type} {l₁ l₂ : List α} (hp : l₁.Perm l₂)
    (hlen : l₂.length ≤ 1) : l₁ = l₂ := by
  match l₂, hlen with
  | [], _ => exact List.Perm.eq_nil hp
  | [x], _ => exact List.perm_singleton.1 hp
  | _ :: _ :: _, h => simp at h

theorem unforcedCalls_advanceTo (numEq : String → Int → Bool) (T : Int) (w : Host)
    (l : List Timer) (hl : debounceTimers w = l) (hlen : l.length ≤ 1) :
    ∃ cs, unforcedCalls (advanceTo numEq T w) = unforcedCalls w ++ cs ∧
      cs.map (fun c => c.time) =
        (l.filter (fun t => decide (t.due ≤ T))).map (fun t => t.due) := by
  unfold advanceTo
  obtain ⟨cs, h1, h2⟩ := (foldl_callMark numEq
    ((w.timers.filter (fun t => decide (t.due ≤ T))).insertionSort (fun a b => a.due ≤ b.due))
    { w with timers := w.timers.filter (fun t => !decide (t.due ≤ T)) }).2.2
  have hperm : (((w.timers.filter (fun t => decide (t.due ≤ T))).insertionSort
      (fun a b => a.due ≤ b.due)).filter (fun t => !t.forceRefresh)).Perm
      (l.filter (fun t => decide (t.due ≤ T))) := by
    refine ((List.perm_insertionSort _ _).filter _).trans ?_
    rw [← hl, debounceTimers, List.filter_filter, List.filter_filter]
    have : (fun (a : Timer) => (!a.forceRefresh && decide (a.due ≤ T))) =
        (fun a => (decide (a.due ≤ T) && !a.forceRefresh)) := by
      funext a; exact Bool.and_comm _ _
    rw [this]
  have heq := eq_of_perm_of_length_le_one hperm (le_trans (List.length_filter_le _ _) hlen)
  rw [heq] at h2
  exact ⟨cs, h1, h2⟩

theorem debouncedMarkBlocked_spec (now : Int) (w : Host) (hinv : DebounceInv w) :
    debounceTimers (debouncedMarkBlocked now w) =
      [{ handle := w.nextHandle, due := now + 1000, forceRefresh := false }] ∧
    (debouncedMarkBlocked now w).ov.debounceTimer = some w.nextHandle ∧
    unforcedCalls (debouncedMarkBlocked now w) = unforcedCalls w := by
  refine ⟨?_, rfl, rfl⟩
  have hnil : (w.timers.filter (fun t => !(some t.handle == w.ov.debounceTimer))).filter
      (fun t => !t.forceRefresh) = [] := by
    rw [List.filter_filter, List.filter_eq_nil_iff]
    intro x hx
    cases hf : x.forceRefresh with
    | true => simp
    | false => simp [hinv x hx hf]
  simp only [debounceTimers, debouncedMarkBlocked, setTimeout, clearTimeout, List.filter_append,
    hnil]
  simp

theorem debounceInv_of_single (w : Host) (x : Timer) (h1 : debounceTimers w = [x])
    (h2 : w.ov.debounceTimer = some x.handle) : DebounceInv w := by
  intro y hy hf
  have : y ∈ debounceTimers w := by
    simp [debounceTimers, hy, hf]
  rw [h1, List.mem_singleton] at this
  rw [this]; exact h2

theorem debounceInv_advanceTo (numEq : String → Int → Bool) (T : Int) (w : Host)
    (hinv : DebounceInv w) : DebounceInv (advanceTo numEq T w) := by
  intro x hx hf
  rw [(advanceTo_timers numEq T w).1] at hx
  rw [(advanceTo_timers numEq T w).2]
  exact hinv x (List.mem_of_mem_filter hx) hf

theorem debounceInv_apply (numEq : String → Int → Bool) (e : HostEvent) (w : Host)
    (hinv : DebounceInv w) : DebounceInv (e.apply numEq w) := by
  cases e with
  | trigger now =>
    obtain ⟨h1, h2, _⟩ := debouncedMarkBlocked_spec now w hinv
    exact debounceInv_of_single _ _ h1 h2
  | tick T => exact debounceInv_advanceTo numEq T w hinv
  | focus now =>
    intro x hx hf
    simp only [HostEvent.apply] at hx ⊢
    rw [(callMark_timers numEq w true now).1] at hx
    rw [(callMark_timers numEq w true now).2]
    exact hinv x hx hf
  | settled req result =>
    intro x hx hf
    simp only [HostEvent.apply] at hx ⊢
    rw [settle_debounceTimer]
    exact hinv x hx hf
  | render page => exact hinv

theorem debounceInv_runHost (numEq : String → Int → Bool) (events : List HostEvent) :
    ∀ w : Host, DebounceInv w → DebounceInv (runHost numEq events w) := by
  unfold runHost
  induction events with
  | nil => intro w h; exact h
  | cons e es ih => intro w h; exact ih _ (debounceInv_apply numEq e w h)

theorem debounceInv_start (now : Int) (page : List Element) :
    DebounceInv (Host.start now page) := by
  intro x hx hf
  simp [Host.start, setTimeout] at hx
  rw [hx] at hf
  simp at hf

theorem afterTrigger_debounced (now : Int) (w : Host) (hinv : DebounceInv w) :
    AfterTrigger now (debouncedMarkBlocked now w) :=
  ⟨w.nextHandle, (debouncedMarkBlocked_spec now w hinv).1, (debouncedMarkBlocked_spec now w hinv).2.1⟩

theorem map_eq_singleton {α β : Type} {f : α → β} {l : List α} {b : β}
    (h : l.map f = [b]) : ∃ a, l = [a] ∧ f a = b := by
  cases l with
  | nil => simp at h
  | cons a l =>
    cases l with
    | nil => exact ⟨a, rfl, by simpa using h⟩
    | cons a' l => simp at h

theorem burst_spec (numEq : String → Int → Bool) (ts : List Int) :
    ∀ (t0 : Int) (w : Host), AfterTrigger t0 w →
      List.Chain (fun a b : Int => a ≤ b ∧ b - a < 1000) t0 ts →
      AfterTrigger (ts.getLastD t0) (burst numEq ts w) ∧
      unforcedCalls (burst numEq ts w) = unforcedCalls w := by
  induction ts with
  | nil => intro t0 w h _; exact ⟨h, rfl⟩
  | cons t rest ih =>
    intro t0 w hw hchain
    obtain ⟨h, hd, hh⟩ := hw
    rw [List.chain_cons] at hchain
    obtain ⟨⟨_, hlt⟩, hrest⟩ := hchain
    have hnot : ¬ (t0 + 1000 ≤ t) := by omega
    have hd1 : debounceTimers (advanceTo numEq t w) =
        [{ handle := h, due := t0 + 1000, forceRefresh := false }] := by
      rw [debounceTimers_advanceTo, hd]
      simp [hnot]
    have hc1 : unforcedCalls (advanceTo numEq t w) = unforcedCalls w := by
      obtain ⟨cs, h1, h2⟩ := unforcedCalls_advanceTo numEq t w _ hd (by simp)
      have hcs : cs = [] := by simpa [hnot] using h2
      rw [h1, hcs, List.append_nil]
    have hinv1 : DebounceInv (advanceTo numEq t w) :=
      debounceInv_of_single _ _ hd1 (by rw [(advanceTo_timers numEq t w).2]; exact hh)
    have hstep := ih t (debouncedMarkBlocked t (advanceTo numEq t w))
      (afterTrigger_debounced t _ hinv1) hrest
    have hb : burst numEq (t :: rest) w =
        burst numEq rest (debouncedMarkBlocked t (advanceTo numEq t w)) := rfl
    rw [hb, List.getLastD_cons]
    refine ⟨hstep.1, hstep.2.trans ?_⟩
    rw [(debouncedMarkBlocked_spec t _ hinv1).2.2, hc1]

/-- C7: in any state the overlay can reach from its start, a non-empty run of
`debouncedMarkBlocked` triggers `t0 :: ts`, each less than 1000 ms after the previous one,
leads to exactly one invocation of `markBlockedChallenges` without the flag, at the time of the
last trigger plus 1000 ms: once the event loop has reached a time `T` at or past that point,
the record of unforced invocations has grown by that single call `c`, which issues at most
one fetch, and no debounce timer is left. At every moment of the burst (after any number `k`
of the later triggers, at any time `T'`) at most one debounce timer is pending. -/
theorem debounce_coalesces_burst (numEq : String → Int → Bool) (start : Int)
    (page : List Element) (events : List HostEvent) (t0 : Int) (ts : List Int) (T : Int)
    (hchain : List.Chain' (fun a b : Int => a ≤ b ∧ b - a < 1000) (t0 :: ts))
    (hT : ts.getLastD t0 + 1000 ≤ T) :
    (∃ c : Call,
      unforcedCalls (advanceTo numEq T (burst numEq ts
          (debouncedMarkBlocked t0 (runHost numEq events (Host.start start page))))) =
        unforcedCalls (runHost numEq events (Host.start start page)) ++ [c] ∧
      c.time = ts.getLastD t0 + 1000 ∧ c.forceRefresh = false ∧
      c.request.toList.length ≤ 1) ∧
    debounceTimers (advanceTo numEq T (burst numEq ts
        (debouncedMarkBlocked t0 (runHost numEq events (Host.start start page))))) = [] ∧
    (∀ (k : Nat) (T' : Int), (debounceTimers (advanceTo numEq T' (burst numEq (ts.take k)
        (debouncedMarkBlocked t0 (runHost numEq events (Host.start start page)))))).length
          ≤ 1) := by
  have hinv : DebounceInv (runHost numEq events (Host.start start page)) :=
    debounceInv_runHost numEq events _ (debounceInv_start start page)
  generalize runHost numEq events (Host.start start page) = w at hinv ⊢
  have h1 := afterTrigger_debounced t0 w hinv
  have hc1 := (debouncedMarkBlocked_spec t0 w hinv).2.2
  obtain ⟨⟨h, hd, _⟩, hcalls⟩ := burst_spec numEq ts t0 _ h1 hchain
  have hdec : decide (ts.getLastD t0 + 1000 ≤ T) = true := decide_eq_true hT
  refine ⟨?_, ?_, ?_⟩
  · obtain ⟨cs, h2, h3⟩ := unforcedCalls_advanceTo numEq T _ _ hd (by simp)
    simp only [List.filter_cons, hdec, if_true, List.filter_nil, List.map_cons,
      List.map_nil] at h3
    obtain ⟨c, hcs, hct⟩ := map_eq_singleton h3
    subst hcs
    refine ⟨c, by rw [h2, hcalls, hc1], hct, ?_, ?_⟩
    · have hmem : c ∈ unforcedCalls (advanceTo numEq T (burst numEq ts
          (debouncedMarkBlocked t0 w))) := by rw [h2]; simp
      simpa [unforcedCalls] using (List.mem_filter.1 hmem).2
    · cases c.request <;> simp
  · rw [debounceTimers_advanceTo, hd]
    simp only [List.filter_cons, hdec, Bool.not_true, List.filter_nil]
    rfl
  · intro k T'
    have hk : List.Chain (fun a b : Int => a ≤ b ∧ b - a < 1000) t0 (ts.take k) := by
      have := List.Chain'.take hchain (k + 1)
      simpa [List.Chain'] using this
    obtain ⟨⟨h', hd', _⟩, _⟩ := burst_spec numEq (ts.take k) t0 _ h1 hk
    rw [debounceTimers_advanceTo, hd']
    exact le_trans (List.length_filter_le _ _) (by simp)

/-- C7 at a concrete burst: from the start at time 0, triggers at 1100, 1300 and 2000 leave
no debounce timer once the clock has reached 5000, the single unforced invocation having
run at 3000. -/
theorem debounce_coalesces_burst_witness :
    (unforcedCalls (advanceTo decimalNumEq 5000 (burst decimalNumEq [1300, 2000]
        (debouncedMarkBlocked 1100 (runHost decimalNumEq [HostEvent.tick 1100]
          (Host.start 0 [plainButton "Baby RE"])))))).map (fun c => c.time) = [3000] ∧
    debounceTimers (advanceTo decimalNumEq 5000 (burst decimalNumEq [1300, 2000]
        (debouncedMarkBlocked 1100 (runHost decimalNumEq [HostEvent.tick 1100]
          (Host.start 0 [plainButton "Baby RE"]))))) = [] :=
  ⟨by decide,
   (debounce_coalesces_burst decimalNumEq 0 [plainButton "Baby RE"] [HostEvent.tick 1100]
    1100 [1300, 2000] 5000 (by simp) (by decide)).2.1⟩

/-! ## Document tree -/

theorem count_appendChild (p : Tag → Bool) (n : Tag) (d : Dom) :
    (appendChild n d).count p = d.count p + (if p n then 1 else 0) := by
  induction d with
  | nil => simp [appendChild, Dom.count]
  | node e children siblings _ ih2 => simp only [appendChild, Dom.count, ih2]; omega

theorem count_appendToFirstHead (p : Tag → Bool) (n : Tag) (d d' : Dom)
    (h : appendToFirstHead n d = some d') :
    d'.count p = d.count p + (if p n then 1 else 0) := by
  induction d generalizing d' with
  | nil => simp [appendToFirstHead] at h
  | node e children siblings _ ih2 =>
    unfold appendToFirstHead at h
    split at h
    · cases h
      simp only [Dom.count, count_appendChild]; omega
    · cases hs : appendToFirstHead n siblings with
      | none => simp [hs] at h
      | some s' =>
        simp only [hs, Option.some.injEq] at h
        subst h
        simp only [Dom.count, ih2 s' hs]; omega

theorem count_appendToHead (p : Tag → Bool) (n : Tag) (d d' : Dom)
    (h : appendToHead n d = some d') :
    d'.count p = d.count p + (if p n then 1 else 0) := by
  cases d with
  | nil => simp [appendToHead] at h
  | node e children siblings =>
    unfold appendToHead at h
    cases hs : appendToFirstHead n children with
    | none => simp [hs] at h
    | some c' =>
      simp only [hs, Option.some.injEq] at h
      subst h
      simp only [Dom.count, count_appendToFirstHead p n children c' hs]; omega

theorem count_wrapperBefore (p : Tag → Bool) (rest : Dom) :
    (wrapperBefore rest).count p = (wrapperBefore Dom.nil).count p + rest.count p := by
  simp only [wrapperBefore, Dom.count]; omega

theorem count_prependWrapper (p : Tag → Bool) (d : Dom) :
    ∀ (parentRow : Bool) (d' : Dom), prependWrapper parentRow d = some d' →
      d'.count p = d.count p + (wrapperBefore Dom.nil).count p := by
  induction d with
  | nil => intro parentRow d' h; simp [prependWrapper] at h
  | node e children siblings ih1 ih2 =>
    intro parentRow d' h
    unfold prependWrapper at h
    split at h
    · cases h
      simp only [Dom.count, wrapperBefore]; omega
    · cases hc : prependWrapper (decide ("row" ∈ e.classes)) children with
      | some c' =>
        simp only [hc, Option.some.injEq] at h
        subst h
        simp only [Dom.count, ih1 _ c' hc]; omega
      | none =>
        cases hs : prependWrapper parentRow siblings with
        | some s' =>
          simp only [hc, hs, Option.some.injEq] at h
          subst h
          simp only [Dom.count, ih2 _ s' hs]; omega
        | none => simp [hc, hs] at h

theorem prependWrapper_isSome (d : Dom) :
    ∀ parentRow : Bool, (prependWrapper parentRow d).isSome = hasContainer parentRow d := by
  induction d with
  | nil => intro parentRow; rfl
  | node e children siblings ih1 ih2 =>
    intro parentRow
    unfold prependWrapper hasContainer
    split
    · rename_i h; simp [h]
    · rename_i h
      rw [← ih1, ← ih2]
      cases hc : prependWrapper (decide ("row" ∈ e.classes)) children with
      | some c' => simp [h]
      | none =>
        cases hs : prependWrapper parentRow siblings <;> simp [h]

theorem hasId_iff (i : String) (d : Dom) : hasId i d = true ↔ countId i d ≠ 0 := by
  unfold countId
  induction d with
  | nil => simp [hasId, Dom.count]
  | node e children siblings ih1 ih2 =>
    simp only [hasId, Dom.count, Bool.or_eq_true, ih1, ih2]
    by_cases h : (e.id == i) = true
    · simp [h]
    · simp [h]; omega

theorem hasContainer_appendChild (n : Tag) (hn : n.classes = []) (d : Dom) :
    ∀ parentRow : Bool, hasContainer parentRow (appendChild n d) = hasContainer parentRow d := by
  induction d with
  | nil => intro parentRow; simp [appendChild, hasContainer, hn]
  | node e children siblings _ ih2 => intro parentRow; simp [appendChild, hasContainer, ih2]

theorem hasContainer_appendToFirstHead (n : Tag) (hn : n.classes = []) (d : Dom) :
    ∀ (parentRow : Bool) (d' : Dom), appendToFirstHead n d = some d' →
      hasContainer parentRow d' = hasContainer parentRow d := by
  induction d with
  | nil => intro parentRow d' h; simp [appendToFirstHead] at h
  | node e children siblings _ ih2 =>
    intro parentRow d' h
    unfold appendToFirstHead at h
    split at h
    · cases h
      simp [hasContainer, hasContainer_appendChild n hn]
    · cases hs : appendToFirstHead n siblings with
      | none => simp [hs] at h
      | some s' =>
        simp only [hs, Option.some.injEq] at h
        subst h
        simp [hasContainer, ih2 parentRow s' hs]

theorem hasContainer_appendToHead (n : Tag) (hn : n.classes = []) (d d' : Dom)
    (parentRow : Bool) (h : appendToHead n d = some d') :
    hasContainer parentRow d' = hasContainer parentRow d := by
  cases d with
  | nil => simp [appendToHead] at h
  | node e children siblings =>
    unfold appendToHead at h
    cases hs : appendToFirstHead n children with
    | none => simp [hs] at h
    | some c' =>
      simp only [hs, Option.some.injEq] at h
      subst h
      simp [hasContainer, hasContainer_appendToFirstHead n hn children _ c' hs]

theorem count_onConfig (p : Tag → Bool) (hp : p blockedChallengesStyle = false) (h : Bool)
    (doc : Dom) : (onConfig h doc).count p = doc.count p := by
  unfold onConfig
  split
  · cases ha : appendToHead blockedChallengesStyle doc with
    | none => rfl
    | some d' => simp [count_appendToHead p _ doc d' ha, hp]
  · rfl

theorem hasContainer_onConfig (h : Bool) (doc : Dom) :
    hasContainer false (onConfig h doc) = hasContainer false doc := by
  unfold onConfig
  split
  · cases ha : appendToHead blockedChallengesStyle doc with
    | none => rfl
    | some d' => simpa using hasContainer_appendToHead _ rfl doc d' false ha
  · rfl

theorem count_bootstrap (p : Tag → Bool) (hp : p customUnblockStyle = false) (doc : Dom) :
    (bootstrap "/challenges" doc).1.count p = doc.count p +
      (if hasContainer false doc && !hasId "btn-unblock-page" doc then
        (wrapperBefore Dom.nil).count p else 0) := by
  unfold bootstrap
  simp only [if_true]
  split
  · rename_i hg
    have hc : hasContainer false doc = true := by
      simp only [Bool.and_eq_true] at hg; exact hg.1
    rw [← prependWrapper_isSome] at hc
    obtain ⟨d1, hd1⟩ := Option.isSome_iff_exists.1 hc
    have h1 := count_prependWrapper p doc false d1 hd1
    simp only [hd1, Option.getD_some]
    split
    · cases ha : appendToHead customUnblockStyle d1 with
      | none => simpa using h1
      | some d2 => simp [count_appendToHead p _ d1 d2 ha, hp, h1]
    · simpa using h1
  · simp

theorem bootstrap_noop (doc : Dom)
    (h : (hasContainer false doc && !hasId "btn-unblock-page" doc) = false) :
    bootstrap "/challenges" doc = (doc, true) := by
  simp [bootstrap, h]

theorem count_runScript (p : Tag → Bool) (hp1 : p customUnblockStyle = false)
    (hp2 : p blockedChallengesStyle = false) (doc : Dom) (cfg : ConfigResult) :
    (runScript "/challenges" doc cfg).count p = doc.count p +
      (if hasContainer false doc && !hasId "btn-unblock-page" doc then
        (wrapperBefore Dom.nil).count p else 0) := by
  unfold runScript
  simp only
  split
  · cases cfg with
    | failed => exact count_bootstrap p hp1 doc
    | config h => simp only; rw [count_onConfig p hp2]; exact count_bootstrap p hp1 doc
  · exact count_bootstrap p hp1 doc

theorem hasContainer_runScript_of_not (doc : Dom) (cfg : ConfigResult)
    (h : hasContainer false doc = false) :
    hasContainer false (runScript "/challenges" doc cfg) = false := by
  unfold runScript
  rw [bootstrap_noop doc (by simp [h])]
  cases cfg with
  | failed => simpa using h
  | config hl => simp only [if_true]; rw [hasContainer_onConfig]; exact h

theorem count_runScripts_of_no_container (p : Tag → Bool) (hp1 : p customUnblockStyle = false)
    (hp2 : p blockedChallengesStyle = false) (cfgs : List ConfigResult) :
    ∀ doc : Dom, hasContainer false doc = false →
      (runScripts "/challenges" cfgs doc).count p = doc.count p := by
  unfold runScripts
  induction cfgs with
  | nil => intro doc _; rfl
  | cons c cs ih =>
    intro doc h
    rw [List.foldl_cons, ih _ (hasContainer_runScript_of_not doc c h),
      count_runScript p hp1 hp2]
    simp [h]

theorem count_runScripts_of_button (p : Tag → Bool) (hp1 : p customUnblockStyle = false)
    (hp2 : p blockedChallengesStyle = false) (cfgs : List ConfigResult) :
    ∀ doc : Dom, countId "btn-unblock-page" doc ≠ 0 →
      (runScripts "/challenges" cfgs doc).count p = doc.count p := by
  unfold runScripts
  induction cfgs with
  | nil => intro doc _; rfl
  | cons c cs ih =>
    intro doc h
    have hid : hasId "btn-unblock-page" doc = true := (hasId_iff _ doc).2 h
    have hstep : ∀ q : Tag → Bool, q customUnblockStyle = false →
        q blockedChallengesStyle = false →
        (runScript "/challenges" doc c).count q = doc.count q := by
      intro q hq1 hq2
      rw [count_runScript q hq1 hq2]
      simp [hid]
    have hb : countId "btn-unblock-page" (runScript "/challenges" doc c) ≠ 0 := by
      unfold countId at h ⊢
      rw [hstep _ (by decide) (by decide)]
      exact h
    rw [List.foldl_cons, ih _ hb, hstep p hp1 hp2]

/-- C8 (counterexample): on `/challenges`, a document without an element matching
`.row > .col-md-12` contains no element with id `btn-unblock-page` after the script has
executed, not exactly one. -/
theorem no_button_without_container :
    countId "btn-unblock-page"
      (runScripts "/challenges" [ConfigResult.config true] otherThemeDoc) = 0 ∧
    countId "btn-unblock-wrapper"
      (runScripts "/challenges" [ConfigResult.config true] otherThemeDoc) = 0 := by
  decide

/-- C8 (amended): on `/challenges`, for a document that holds no element with id
`btn-unblock-page` or `btn-unblock-wrapper` before the first execution, after one or more
executions of the script the document contains exactly one element with each of the two ids
when it has an element matching `.row > .col-md-12`, and none otherwise; the number does not
depend on how many times the script ran. -/
theorem unblock_button_inserted_once (cfgs : List ConfigResult) (doc : Dom)
    (hne : cfgs ≠ []) (hb : countId "btn-unblock-page" doc = 0)
    (hw : countId "btn-unblock-wrapper" doc = 0) :
    countId "btn-unblock-page" (runScripts "/challenges" cfgs doc) =
      (if hasContainer false doc then 1 else 0) ∧
    countId "btn-unblock-wrapper" (runScripts "/challenges" cfgs doc) =
      (if hasContainer false doc then 1 else 0) := by
  by_cases hc : hasContainer false doc = true
  · cases cfgs with
    | nil => exact absurd rfl hne
    | cons c cs =>
      have hid : hasId "btn-unblock-page" doc = false := by
        rw [← Bool.not_eq_true, hasId_iff]; simpa using hb
      have h1 : countId "btn-unblock-page" (runScript "/challenges" doc c) = 1 := by
        unfold countId at hb ⊢
        rw [count_runScript _ (by decide) (by decide), hb]
        simp [hc, hid]
        decide
      have h2 : countId "btn-unblock-wrapper" (runScript "/challenges" doc c) = 1 := by
        unfold countId at hw ⊢
        rw [count_runScript _ (by decide) (by decide), hw]
        simp [hc, hid]
        decide
      have hb1 : countId "btn-unblock-page" (runScript "/challenges" doc c) ≠ 0 := by
        rw [h1]; decide
      have hrun : runScripts "/challenges" (c :: cs) doc =
          runScripts "/challenges" cs (runScript "/challenges" doc c) := rfl
      rw [hrun]
      unfold countId at h1 h2 ⊢
      rw [count_runScripts_of_button _ (by decide) (by decide) cs _ hb1,
        count_runScripts_of_button _ (by decide) (by decide) cs _ hb1, h1, h2]
      simp [hc]
  · have hc' : hasContainer false doc = false := by simpa using hc
    unfold countId at hb hw ⊢
    rw [count_runScripts_of_no_container _ (by decide) (by decide) cfgs doc hc',
      count_runScripts_of_no_container _ (by decide) (by decide) cfgs doc hc', hb, hw]
    simp [hc']

/-- C8 (amended) at a concrete document: two executions on a page with a container leave one
button and one wrapper. -/
theorem unblock_button_inserted_once_witness :
    countId "btn-unblock-page" (runScripts "/challenges"
        [ConfigResult.config true, ConfigResult.failed] challengesDoc) = 1 ∧
    countId "btn-unblock-wrapper" (runScripts "/challenges"
        [ConfigResult.config true, ConfigResult.failed] challengesDoc) = 1 :=
  unblock_button_inserted_once [ConfigResult.config true, ConfigResult.failed] challengesDoc
    (by decide) (by decide) (by decide)

/-- C9 (evaluation at the failing input): two executions of the script on `challengesDoc`,
the configuration enabling the highlighting both times, leave two `style` elements with id
`blocked-challenges-style` in the document, and one with id `custom-unblock-style`. -/
theorem blocked_style_injected_twice :
    countStyle "blocked-challenges-style" (runScripts "/challenges"
        [ConfigResult.config true, ConfigResult.config true] challengesDoc) = 2 ∧
    countStyle "custom-unblock-style" (runScripts "/challenges"
        [ConfigResult.config true, ConfigResult.config true] challengesDoc) = 1 := by
  decide

end AttemptsRemover
